import Mathlib

/-!
Verification of the redshirt inter-process message-passing layer:
a shallow embedding of the syscall wrappers in
src/interfaces/syscalls/src/emit.rs and of the environment contract declared
in src/interfaces/syscalls/src/ffi.rs, together with the reactor /
pending-response table the spec describes, and theorems settling the
specification claims against it.
-/

namespace Redshirt

/-- A 256-bit interface identifier, `[u8; 32]` in the source, modelled as a
list of byte values compared by equality. -/
abbrev InterfaceHash := List Nat

/-- `InterfaceMessage` of src/interfaces/syscalls/src/ffi.rs. -/
structure InterfaceMessage where
  message_id : Nat
  emitter_pid : Nat
  actual_data : List Nat
deriving DecidableEq

/-- `ResponseMessage` of src/interfaces/syscalls/src/ffi.rs. -/
structure ResponseMessage where
  message_id : Nat
  actual_data : List Nat
deriving DecidableEq

/-- `Message` of src/interfaces/syscalls/src/ffi.rs. -/
inductive Message where
  | Interface : InterfaceMessage → Message
  | Response : ResponseMessage → Message
deriving DecidableEq

/-- `EmitErr` of src/interfaces/syscalls/src/emit.rs. -/
inductive EmitErr where
  | BadInterface
deriving DecidableEq

/-- `CancelMessageErr` of src/interfaces/syscalls/src/emit.rs. -/
inductive CancelMessageErr where
  | InvalidMessageId
deriving DecidableEq

/-- `core::mem::MaybeUninit<u64>`: `none` models a slot the environment has
not written yet. -/
abbrev MaybeUninit (α : Type) := Option α

/-- `MaybeUninit::assume_init`: reading an initialized slot yields the stored
value; reading an uninitialized slot yields whatever junk happens to sit in
the memory. -/
def assumeInit {α : Type} (junk : α) : MaybeUninit α → α
  | some v => v
  | none => junk

/-- Modelled from the spec: the kernel-side Interface Registry and Router
(spec sections 2, 4.2, 6) standing behind the extern functions declared in
src/interfaces/syscalls/src/ffi.rs, whose implementation is not under src/.
`registered` maps an interface hash to the owning process, `nextId` is the
allocator for fresh Message Identifiers, `live` holds the identifiers still
awaiting an answer, `queue` is the delivery queue of
(destination pid, message) pairs in arrival order. -/
structure RouterState where
  registered : List (InterfaceHash × Nat)
  nextId : Nat
  live : List Nat
  queue : List (Nat × Message)
deriving DecidableEq

/-- Modelled from the spec: the extern `emit_message` declared in
src/interfaces/syscalls/src/ffi.rs (its kernel implementation is not under
src/).  Returns the status code, what the environment wrote into
`event_id_out` (`none` = left untouched), and the updated router state.
With no registered handler it fails with status 1 and no side effect; on
success it queues the message for the handler and, when an answer is needed,
allocates a fresh Message Identifier, marks it live and writes it out. -/
def ffi_emit_message (st : RouterState) (pid : Nat) (interface_hash : InterfaceHash)
    (msg : List Nat) (needs_answer : Bool) : Nat × MaybeUninit Nat × RouterState :=
  match st.registered.find? (fun e => e.1 == interface_hash) with
  | none => (1, none, st)
  | some e =>
    if needs_answer then
      (0, some st.nextId,
        { st with
            nextId := st.nextId + 1,
            live := st.nextId :: st.live,
            queue := st.queue ++ [(e.2, Message.Interface ⟨st.nextId, pid, msg⟩)] })
    else
      (0, none,
        { st with queue := st.queue ++ [(e.2, Message.Interface ⟨0, pid, msg⟩)] })

/-- The result computation of `emit_message_raw`
(src/interfaces/syscalls/src/emit.rs) applied to the outputs of the
environment call: check the status first, then read `message_id_out` (through
`assumeInit`) only in the `needs_answer` branch. -/
def emit_message_raw_post (ret : Nat) (message_id_out : MaybeUninit Nat) (junk : Nat)
    (needs_answer : Bool) : Except EmitErr (Option Nat) :=
  if ret ≠ 0 then Except.error EmitErr.BadInterface
  else if needs_answer then Except.ok (some (assumeInit junk message_id_out))
  else Except.ok none

/-- `emit_message_raw` of src/interfaces/syscalls/src/emit.rs composed with
the modelled environment call.  `junk` stands for the arbitrary initial
content of the uninitialized `message_id_out` slot. -/
def emit_message_raw (st : RouterState) (pid : Nat) (interface_hash : InterfaceHash)
    (buf : List Nat) (needs_answer : Bool) (junk : Nat) :
    Except EmitErr (Option Nat) × RouterState :=
  let r := ffi_emit_message st pid interface_hash buf needs_answer
  (emit_message_raw_post r.1 r.2.1 junk needs_answer, r.2.2)

/-- `emit_message` of src/interfaces/syscalls/src/emit.rs: encode the typed
message, then call `emit_message_raw`. -/
def emit_message {M : Type} (encode : M → List Nat) (st : RouterState) (pid : Nat)
    (interface_hash : InterfaceHash) (msg : M) (needs_answer : Bool) (junk : Nat) :
    Except EmitErr (Option Nat) × RouterState :=
  emit_message_raw st pid interface_hash (encode msg) needs_answer junk

/-- Modelled from the spec: the extern `cancel_message` declared in
src/interfaces/syscalls/src/ffi.rs (its kernel implementation is not under
src/): status 0 and retirement of the identifier when it is live, status 1
and no effect otherwise (spec section 4.4). -/
def ffi_cancel_message (st : RouterState) (message_id : Nat) : Nat × RouterState :=
  if message_id ∈ st.live then (0, { st with live := st.live.erase message_id })
  else (1, st)

/-- `cancel_message` of src/interfaces/syscalls/src/emit.rs. -/
def cancel_message (st : RouterState) (message_id : Nat) :
    Except CancelMessageErr Unit × RouterState :=
  let r := ffi_cancel_message st message_id
  if r.1 == 0 then (Except.ok (), r.2)
  else (Except.error CancelMessageErr.InvalidMessageId, r.2)

/-- A resolution value recorded for one waiter: the decoded answer, or a
decode error (spec section 4.3, step 3). -/
inductive Resolution (T : Type) where
  | ok (v : T)
  | decodeErr
deriving DecidableEq

/-- Modelled from the spec: the process-local Pending-Response Table together
with the resolutions produced by the Reactor (spec section 4.3); the
implementing module (`message_response` of the syscalls crate, used by
src/interfaces/syscalls/src/emit.rs) is not under src/.  `table` holds the
live, not-yet-resolved Message Identifiers; `resolved` the resolutions not
yet picked up by their futures, in the order they were produced. -/
structure ReactorState (T : Type) where
  table : List Nat
  resolved : List (Nat × Resolution T)
deriving DecidableEq

/-- Decode an answer payload into the waiter's resolution value
(spec section 4.3, step 3). -/
def decodeResult {T : Type} (decode : List Nat → Option T) (payload : List Nat) :
    Resolution T :=
  match decode payload with
  | some v => Resolution.ok v
  | none => Resolution.decodeErr

/-- Modelled from the spec: Reactor step 3 (spec section 4.3) on one arrived
`ResponseMessage`: an identifier absent from the table is discarded as a
normal race; a present identifier is removed from the table and its decoded
resolution is recorded for its waiter. -/
def processResponse {T : Type} (decode : List Nat → Option T) (rs : ReactorState T)
    (m : ResponseMessage) : ReactorState T :=
  if m.message_id ∈ rs.table then
    { table := rs.table.erase m.message_id,
      resolved := rs.resolved ++ [(m.message_id, decodeResult decode m.actual_data)] }
  else rs

/-- Modelled from the spec: the Reactor draining a sequence of arrived
response messages in arrival order (spec section 4.3, steps 2 and 3). -/
def driveAll {T : Type} (decode : List Nat → Option T) (rs : ReactorState T)
    (msgs : List ResponseMessage) : ReactorState T :=
  msgs.foldl (processResponse decode) rs

/-- The resolution recorded for a Message Identifier, if any. -/
def lookupResolved {T : Type} (rs : ReactorState T) (i : Nat) : Option (Resolution T) :=
  (rs.resolved.find? (fun p => p.1 == i)).map (fun p => p.2)

/-- The two outcomes of polling a future. -/
inductive Poll (α : Type) where
  | ready (v : α)
  | pending
deriving DecidableEq

/-- Modelled from the spec: the one-shot future returned by the syscalls
crate's `message_response` (not under src/), waiting for the resolution of
one Message Identifier. -/
structure MessageResponseFuture where
  msg_id : Nat
deriving DecidableEq

/-- Modelled from the spec: polling a `MessageResponseFuture` against the
reactor state: ready with the recorded resolution once the Reactor has
produced one, pending until then. -/
def MessageResponseFuture.pollFut {T : Type} (rs : ReactorState T)
    (f : MessageResponseFuture) : Poll (Resolution T) :=
  match lookupResolved rs f.msg_id with
  | some r => Poll.ready r
  | none => Poll.pending

/-- `EmitMessageWithResponse` of src/interfaces/syscalls/src/emit.rs. -/
structure EmitMessageWithResponse where
  inner : Option MessageResponseFuture
  msg_id : Nat
deriving DecidableEq

/-- `EmitMessageWithResponse::poll` of src/interfaces/syscalls/src/emit.rs:
unwrap `inner` (a `none` overall result models the panic of polling after
completion), poll it; on readiness clear `inner` and return `Ok` of the
value. -/
def EmitMessageWithResponse.pollStep {T : Type} (rs : ReactorState T)
    (f : EmitMessageWithResponse) :
    Option (Poll (Except EmitErr (Resolution T)) × EmitMessageWithResponse) :=
  match f.inner with
  | none => none
  | some mrf =>
    match MessageResponseFuture.pollFut rs mrf with
    | Poll.pending => some (Poll.pending, f)
    | Poll.ready val => some (Poll.ready (Except.ok val), { f with inner := none })

/-- The cancellation calls performed by the drop glue of
`EmitMessageWithResponse` (src/interfaces/syscalls/src/emit.rs): one
`cancel_message(msg_id)` call when the future has not resolved (`inner` is
still set), none otherwise. -/
def EmitMessageWithResponse.dropCalls (f : EmitMessageWithResponse) : List Nat :=
  if f.inner.isSome then [f.msg_id] else []

/-- The drop glue of `EmitMessageWithResponse` run against the router state:
the result of the `cancel_message` call is discarded (the source reads
`let _ = cancel_message(self.msg_id)`). -/
def EmitMessageWithResponse.dropRun (st : RouterState) (f : EmitMessageWithResponse) :
    RouterState :=
  if f.inner.isSome then (cancel_message st f.msg_id).2 else st

/-- The future value returned by `emit_message_with_response`: `ready` models
`future::Either::Right(future::ready(r))`, `fut` models
`future::Either::Left(EmitMessageWithResponse { .. })`, and `panicked` the
unreachable `m.unwrap()` on `None`. -/
inductive EmitWithResponseResult (T : Type) where
  | ready (r : Except EmitErr (Resolution T))
  | fut (f : EmitMessageWithResponse)
  | panicked

/-- `emit_message_with_response` of src/interfaces/syscalls/src/emit.rs
composed with the modelled environment and reactor: emit with
`needs_answer = true`; on emission failure return an already-resolved failed
future, registering no waiter; on success register the waiter for the fresh
identifier (spec section 4.3: registration at emission time) and return the
response future. -/
def emit_message_with_response {M T : Type} (encode : M → List Nat) (st : RouterState)
    (rs : ReactorState T) (pid : Nat) (interface_hash : InterfaceHash) (msg : M)
    (junk : Nat) : EmitWithResponseResult T × RouterState × ReactorState T :=
  match emit_message encode st pid interface_hash msg true junk with
  | (Except.error err, st2) => (EmitWithResponseResult.ready (Except.error err), st2, rs)
  | (Except.ok (some id), st2) =>
      (EmitWithResponseResult.fut ⟨some ⟨id⟩, id⟩, st2,
        { rs with table := id :: rs.table })
  | (Except.ok none, st2) => (EmitWithResponseResult.panicked, st2, rs)

/-- Modelled from the spec: the extern `register_interface` declared in
src/interfaces/syscalls/src/ffi.rs (its kernel implementation is not under
src/): the first registration of a hash succeeds with status 0; any later
registration of the same hash, by any process, fails with status 1 and
changes nothing (spec section 4.5). -/
def register_interface (st : RouterState) (pid : Nat) (interface_hash : InterfaceHash) :
    Nat × RouterState :=
  match st.registered.find? (fun e => e.1 == interface_hash) with
  | some _ => (1, st)
  | none => (0, { st with registered := (interface_hash, pid) :: st.registered })

/-- Does one interest entry match a queued message?  Entry 0 is padding and
matches nothing; entry 1 is the sentinel matching any interface message; any
other entry matches the response carrying that Message Identifier (doc of
`next_message` in src/interfaces/syscalls/src/ffi.rs, spec section 6). -/
def matchesEntry (e : Nat) (m : Message) : Bool :=
  if e == 0 then false
  else if e == 1 then
    match m with
    | Message.Interface _ => true
    | Message.Response _ => false
  else
    match m with
    | Message.Interface _ => false
    | Message.Response r => r.message_id == e

/-- Does a message match any entry of the interest list? -/
def matchesAny (to_poll : List Nat) (m : Message) : Bool :=
  to_poll.any (fun e => matchesEntry e m)

/-- Minimal number of bytes needed for a natural number (at least one). -/
def byteLen (n : Nat) : Nat :=
  if n < 256 then 1 else 1 + byteLen (n / 256)
termination_by n
decreasing_by
  exact Nat.div_lt_self (by omega) (by omega)

/-- Size of a SCALE-style compact length header. -/
def compactLen (n : Nat) : Nat :=
  if n < 64 then 1
  else if n < 16384 then 2
  else if n < 1073741824 then 4
  else 1 + byteLen n

/-- Size of the wire encoding of a `Message` (one tag byte, fixed-width u64
fields, compact-length-prefixed payload); the spec leaves the exact layout
implementation-defined (section 6), and only the size matters to the receive
primitive. -/
def encodedSize : Message → Nat
  | Message.Interface m => 1 + 8 + 8 + compactLen m.actual_data.length + m.actual_data.length
  | Message.Response m => 1 + 8 + compactLen m.actual_data.length + m.actual_data.length

/-- Clear (set to 0) the first interest entry matching the delivered message
(doc of `next_message`: the corresponding entry in `to_poll` is set to 0). -/
def clearMatched (to_poll : List Nat) (m : Message) : List Nat :=
  match to_poll with
  | [] => []
  | e :: rest => if matchesEntry e m then 0 :: rest else e :: clearMatched rest m

/-- Remove the first queued message matching the interest list; non-matching
messages are skipped and stay queued. -/
def eraseFirstMatching (to_poll : List Nat) (queue : List Message) : List Message :=
  match queue with
  | [] => []
  | m :: rest => if matchesAny to_poll m then rest else m :: eraseFirstMatching to_poll rest

/-- Outcome of one `next_message` call: status 0 (`nothing` was available),
blocking (`wouldBlock`: the call does not return yet), required size larger
than the buffer (`tooSmall`: nothing written, nothing consumed), or a
delivered message (written out and consumed). -/
inductive NextMessageOutcome where
  | nothing
  | wouldBlock
  | tooSmall (size : Nat)
  | delivered (m : Message)
deriving DecidableEq

/-- Modelled from the spec: the extern `next_message` declared in
src/interfaces/syscalls/src/ffi.rs (its kernel implementation is not under
src/): find the first queued message matching the interest list, skipping but
keeping non-matching messages; return its encoded size without consuming it
when the destination buffer is too small; otherwise deliver it, consume it
and clear the matched interest entry. -/
def next_message (to_poll : List Nat) (queue : List Message) (out_len : Nat)
    (block : Bool) : NextMessageOutcome × List Nat × List Message :=
  match queue.find? (fun m => matchesAny to_poll m) with
  | none =>
    ((if block then NextMessageOutcome.wouldBlock else NextMessageOutcome.nothing),
      to_poll, queue)
  | some m =>
    if encodedSize m ≤ out_len then
      (NextMessageOutcome.delivered m, clearMatched to_poll m,
        eraseFirstMatching to_poll queue)
    else
      (NextMessageOutcome.tooSmall (encodedSize m), to_poll, queue)

/-! ## Helper lemmas -/

theorem emit_raw_not_registered (st : RouterState) (pid : Nat)
    (interface_hash : InterfaceHash) (buf : List Nat) (needs_answer : Bool) (junk : Nat)
    (h : st.registered.find? (fun e => e.1 == interface_hash) = none) :
    emit_message_raw st pid interface_hash buf needs_answer junk
      = (Except.error EmitErr.BadInterface, st) := by
  unfold emit_message_raw ffi_emit_message
  rw [h]
  simp [emit_message_raw_post]

theorem emit_raw_registered (st : RouterState) (pid : Nat)
    (interface_hash : InterfaceHash) (buf : List Nat) (junk : Nat)
    (e : InterfaceHash × Nat)
    (h : st.registered.find? (fun x => x.1 == interface_hash) = some e) :
    emit_message_raw st pid interface_hash buf true junk
      = (Except.ok (some st.nextId),
         { st with
             nextId := st.nextId + 1,
             live := st.nextId :: st.live,
             queue := st.queue ++ [(e.2, Message.Interface ⟨st.nextId, pid, buf⟩)] }) := by
  unfold emit_message_raw ffi_emit_message
  rw [h]
  simp [emit_message_raw_post, assumeInit]

/-! ## Claim theorems -/

/-- Claim C4: a call to `emit_message_raw` targeting an interface with no
registered handler returns `Err(BadInterface)` and has no side effect: the
router state is unchanged (no Message Identifier allocated, no queue entry
created), and the result does not depend on the junk content of the unread
message-id output slot. -/
theorem emit_bad_interface_no_side_effect (st : RouterState) (pid : Nat)
    (interface_hash : InterfaceHash) (buf : List Nat) (needs_answer : Bool)
    (junk junk2 : Nat)
    (h : st.registered.find? (fun e => e.1 == interface_hash) = none) :
    emit_message_raw st pid interface_hash buf needs_answer junk
        = (Except.error EmitErr.BadInterface, st) ∧
    emit_message_raw st pid interface_hash buf needs_answer junk
        = emit_message_raw st pid interface_hash buf needs_answer junk2 := by
  have h1 := emit_raw_not_registered st pid interface_hash buf needs_answer junk h
  have h2 := emit_raw_not_registered st pid interface_hash buf needs_answer junk2 h
  exact ⟨h1, h1.trans h2.symm⟩

/-- Witness for C4 at a concrete empty router state. -/
theorem emit_bad_interface_no_side_effect_witness :
    emit_message_raw ⟨[], 0, [], []⟩ 1 [3] [2] true 7
        = (Except.error EmitErr.BadInterface, (⟨[], 0, [], []⟩ : RouterState)) ∧
    emit_message_raw ⟨[], 0, [], []⟩ 1 [3] [2] true 7
        = emit_message_raw ⟨[], 0, [], []⟩ 1 [3] [2] true 8 :=
  emit_bad_interface_no_side_effect ⟨[], 0, [], []⟩ 1 [3] [2] true 7 8 rfl

/-- Claim C5: a successful `emit_message_raw` call returns `Ok(None)` when
`needs_answer` is false, and `Ok(Some(id))` when `needs_answer` is true,
where `id` is exactly the fresh Message Identifier the environment wrote into
the output slot (the allocator is bumped and the identifier becomes live). -/
theorem emit_success_result (st : RouterState) (pid : Nat)
    (interface_hash : InterfaceHash) (buf : List Nat) (junk : Nat)
    (e : InterfaceHash × Nat)
    (h : st.registered.find? (fun x => x.1 == interface_hash) = some e) :
    (emit_message_raw st pid interface_hash buf false junk).1 = Except.ok none ∧
    (emit_message_raw st pid interface_hash buf true junk).1
        = Except.ok (some st.nextId) ∧
    (ffi_emit_message st pid interface_hash buf true).2.1 = some st.nextId ∧
    (emit_message_raw st pid interface_hash buf true junk).2.nextId = st.nextId + 1 ∧
    (emit_message_raw st pid interface_hash buf true junk).2.live
        = st.nextId :: st.live := by
  refine ⟨?_, ?_, ?_, ?_, ?_⟩
  · unfold emit_message_raw ffi_emit_message
    rw [h]
    simp [emit_message_raw_post]
  · rw [emit_raw_registered st pid interface_hash buf junk e h]
  · unfold ffi_emit_message
    rw [h]
    simp
  · rw [emit_raw_registered st pid interface_hash buf junk e h]
  · rw [emit_raw_registered st pid interface_hash buf junk e h]

/-- Witness for C5 at a concrete router state with one registered handler. -/
theorem emit_success_result_witness :
    (emit_message_raw ⟨[([1], 7)], 5, [], []⟩ 9 [1] [2] false 99).1 = Except.ok none ∧
    (emit_message_raw ⟨[([1], 7)], 5, [], []⟩ 9 [1] [2] true 99).1
        = Except.ok (some 5) ∧
    (ffi_emit_message ⟨[([1], 7)], 5, [], []⟩ 9 [1] [2] true).2.1 = some 5 ∧
    (emit_message_raw ⟨[([1], 7)], 5, [], []⟩ 9 [1] [2] true 99).2.nextId = 6 ∧
    (emit_message_raw ⟨[([1], 7)], 5, [], []⟩ 9 [1] [2] true 99).2.live = [5] :=
  emit_success_result ⟨[([1], 7)], 5, [], []⟩ 9 [1] [2] 99 ([1], 7) rfl

/-- Claim C6: when the underlying emit fails, `emit_message_with_response`
returns an already-resolved future carrying `Err(BadInterface)`, the router
state is untouched and no waiter is registered with the reactor. -/
theorem emit_with_response_failed_emit {M T : Type} (encode : M → List Nat)
    (st : RouterState) (rs : ReactorState T) (pid : Nat)
    (interface_hash : InterfaceHash) (msg : M) (junk : Nat)
    (h : st.registered.find? (fun e => e.1 == interface_hash) = none) :
    emit_message_with_response encode st rs pid interface_hash msg junk
      = (EmitWithResponseResult.ready (Except.error EmitErr.BadInterface), st, rs) := by
  unfold emit_message_with_response emit_message
  rw [emit_raw_not_registered st pid interface_hash (encode msg) true junk h]

/-- Witness for C6 at a concrete empty router state. -/
theorem emit_with_response_failed_emit_witness :
    emit_message_with_response (fun n : Nat => [n]) ⟨[], 0, [], []⟩
        (⟨[], []⟩ : ReactorState Nat) 1 [3] 4 9
      = (EmitWithResponseResult.ready (Except.error EmitErr.BadInterface),
         (⟨[], 0, [], []⟩ : RouterState), (⟨[], []⟩ : ReactorState Nat)) :=
  emit_with_response_failed_emit (fun n : Nat => [n]) ⟨[], 0, [], []⟩
    (⟨[], []⟩ : ReactorState Nat) 1 [3] 4 9 rfl

/-- Claim C9: of two `register_interface` calls with the same 32-byte
identifier, by any processes including the same one, the first succeeds
(status 0, the registration is recorded) and the second fails with status 1
(`AlreadyRegistered`), leaving the existing registration untouched. -/
theorem register_interface_first_wins (st : RouterState) (p q : Nat)
    (interface_hash : InterfaceHash)
    (h : st.registered.find? (fun e => e.1 == interface_hash) = none) :
    (register_interface st p interface_hash).1 = 0 ∧
    (interface_hash, p) ∈ (register_interface st p interface_hash).2.registered ∧
    register_interface (register_interface st p interface_hash).2 q interface_hash
      = (1, (register_interface st p interface_hash).2) := by
  have h1 : register_interface st p interface_hash
      = (0, { st with registered := (interface_hash, p) :: st.registered }) := by
    unfold register_interface
    rw [h]
  rw [h1]
  refine ⟨rfl, by simp, ?_⟩
  unfold register_interface
  rw [List.find?_cons_of_pos _ (by simp)]

/-- Witness for C9 at a concrete empty router state. -/
theorem register_interface_first_wins_witness :
    (register_interface ⟨[], 0, [], []⟩ 1 [9]).1 = 0 ∧
    (([9], 1) : InterfaceHash × Nat)
        ∈ (register_interface ⟨[], 0, [], []⟩ 1 [9]).2.registered ∧
    register_interface (register_interface ⟨[], 0, [], []⟩ 1 [9]).2 2 [9]
      = (1, (register_interface ⟨[], 0, [], []⟩ 1 [9]).2) :=
  register_interface_first_wins ⟨[], 0, [], []⟩ 1 2 [9] rfl

/-- Claim C10: the uninitialized message-id slot is read only when the
environment call succeeded (status 0) with `needs_answer` true — the case in
which the environment wrote it; in every other case the result is
independent of both the slot and its junk content, and whenever the slot was
written the junk content never influences the result.  Composed with the
modelled environment the whole of `emit_message_raw` is independent of the
junk value. -/
theorem assume_init_only_when_written (ret : Nat) (out out2 : MaybeUninit Nat)
    (junk junk2 : Nat) (needs_answer : Bool) :
    (¬(ret = 0 ∧ needs_answer = true) →
      emit_message_raw_post ret out junk needs_answer
        = emit_message_raw_post ret out2 junk2 needs_answer) ∧
    (∀ id, out = some id →
      emit_message_raw_post ret out junk needs_answer
        = emit_message_raw_post ret out junk2 needs_answer) ∧
    (∀ (st : RouterState) (pid : Nat) (interface_hash : InterfaceHash) (buf : List Nat),
      emit_message_raw st pid interface_hash buf needs_answer junk
        = emit_message_raw st pid interface_hash buf needs_answer junk2) := by
  refine ⟨?_, ?_, ?_⟩
  · intro hno
    by_cases hr : ret = 0
    · have hna : needs_answer = false := by
        cases needs_answer
        · rfl
        · exact absurd ⟨hr, rfl⟩ hno
      subst hna
      simp [emit_message_raw_post]
    · simp [emit_message_raw_post, hr]
  · intro id hid
    subst hid
    cases needs_answer <;> simp [emit_message_raw_post, assumeInit]
  · intro st pid interface_hash buf
    unfold emit_message_raw ffi_emit_message
    cases hf : st.registered.find? (fun e => e.1 == interface_hash) with
    | none => simp [emit_message_raw_post]
    | some e => cases needs_answer <;> simp [emit_message_raw_post, assumeInit]

/-- Witness for C10 at concrete slot contents. -/
theorem assume_init_only_when_written_witness :
    emit_message_raw_post 1 none 7 true = emit_message_raw_post 1 (some 9) 8 true ∧
    emit_message_raw_post 0 (some 9) 7 true = emit_message_raw_post 0 (some 9) 8 true ∧
    emit_message_raw ⟨[], 0, [], []⟩ 1 [3] [2] true 7
      = emit_message_raw ⟨[], 0, [], []⟩ 1 [3] [2] true 8 :=
  ⟨(assume_init_only_when_written 1 none (some 9) 7 8 true).1 (by simp),
   (assume_init_only_when_written 0 (some 9) (some 9) 7 8 true).2.1 9 rfl,
   (assume_init_only_when_written 1 none none 7 8 true).2.2 ⟨[], 0, [], []⟩ 1 [3] [2]⟩

/-! ## Reactor lemmas -/

theorem driveAll_nil {T : Type} (decode : List Nat → Option T) (rs : ReactorState T) :
    driveAll decode rs [] = rs := rfl

theorem driveAll_cons {T : Type} (decode : List Nat → Option T) (rs : ReactorState T)
    (m : ResponseMessage) (rest : List ResponseMessage) :
    driveAll decode rs (m :: rest) = driveAll decode (processResponse decode rs m) rest := rfl

theorem lookupResolved_processResponse_of_some {T : Type} (decode : List Nat → Option T)
    (rs : ReactorState T) (m : ResponseMessage) {i : Nat} {r : Resolution T}
    (h : lookupResolved rs i = some r) :
    lookupResolved (processResponse decode rs m) i = some r := by
  unfold processResponse
  split
  · unfold lookupResolved at h ⊢
    simp only [List.find?_append]
    cases hf : rs.resolved.find? (fun p => p.1 == i) with
    | none => rw [hf] at h; simp at h
    | some p =>
      rw [hf] at h
      simpa using h
  · exact h

theorem lookupResolved_driveAll_of_some {T : Type} (decode : List Nat → Option T)
    (msgs : List ResponseMessage) :
    ∀ (rs : ReactorState T) {i : Nat} {r : Resolution T},
      lookupResolved rs i = some r →
      lookupResolved (driveAll decode rs msgs) i = some r := by
  induction msgs with
  | nil => intro rs i r h; exact h
  | cons m rest ih =>
    intro rs i r h
    rw [driveAll_cons]
    exact ih _ (lookupResolved_processResponse_of_some decode rs m h)

theorem lookupResolved_processResponse_of_ne {T : Type} (decode : List Nat → Option T)
    (rs : ReactorState T) (m : ResponseMessage) {i : Nat} (h : m.message_id ≠ i) :
    lookupResolved (processResponse decode rs m) i = lookupResolved rs i := by
  unfold processResponse
  split
  · unfold lookupResolved
    simp only [List.find?_append]
    cases hf : rs.resolved.find? (fun p => p.1 == i) with
    | some p => simp [hf]
    | none =>
      have hb : (m.message_id == i) = false := by simp [h]
      simp [hf, List.find?, hb]
  · rfl

theorem mem_table_processResponse_of_ne {T : Type} (decode : List Nat → Option T)
    (rs : ReactorState T) (m : ResponseMessage) {i : Nat} (h : i ≠ m.message_id) :
    (i ∈ (processResponse decode rs m).table ↔ i ∈ rs.table) := by
  unfold processResponse
  split
  · simp [List.mem_erase_of_ne h]
  · exact Iff.rfl

theorem processResponse_hit {T : Type} (decode : List Nat → Option T)
    (rs : ReactorState T) (m : ResponseMessage)
    (hmem : m.message_id ∈ rs.table)
    (hnone : lookupResolved rs m.message_id = none) :
    lookupResolved (processResponse decode rs m) m.message_id
      = some (decodeResult decode m.actual_data) := by
  unfold processResponse
  rw [if_pos hmem]
  unfold lookupResolved at hnone ⊢
  cases hf : rs.resolved.find? (fun p => p.1 == m.message_id) with
  | some p => rw [hf] at hnone; simp at hnone
  | none => simp [List.find?_append, hf, List.find?]

theorem driveAll_lookup {T : Type} (decode : List Nat → Option T) :
    ∀ (msgs : List ResponseMessage) (rs : ReactorState T) (i : Nat),
      i ∈ rs.table → lookupResolved rs i = none →
      lookupResolved (driveAll decode rs msgs) i
        = (msgs.find? (fun m => m.message_id == i)).map
            (fun m => decodeResult decode m.actual_data) := by
  intro msgs
  induction msgs with
  | nil => intro rs i _ hnone; simpa [driveAll_nil] using hnone
  | cons m rest ih =>
    intro rs i hmem hnone
    rw [driveAll_cons]
    by_cases hid : m.message_id = i
    · subst hid
      have h1 := processResponse_hit decode rs m hmem hnone
      have h2 := lookupResolved_driveAll_of_some decode rest _ h1
      rw [List.find?_cons_of_pos _ (by simp)]
      simpa using h2
    · rw [List.find?_cons_of_neg _ (by simp [hid])]
      have hmem2 : i ∈ (processResponse decode rs m).table :=
        (mem_table_processResponse_of_ne decode rs m (fun hh => hid hh.symm)).mpr hmem
      have hnone2 : lookupResolved (processResponse decode rs m) i = none := by
        rw [lookupResolved_processResponse_of_ne decode rs m hid]
        exact hnone
      exact ih _ i hmem2 hnone2

/-- Claim C1: no cross-talk.  For any sequence of answers arriving in any
order, the resolution each pending Message Identifier receives is exactly the
decoded payload of the first answer emitted against its own identifier, and
never an answer against a different identifier; in particular the response
future for that identifier polls ready with precisely that value. -/
theorem emit_no_cross_talk {T : Type} (decode : List Nat → Option T)
    (msgs : List ResponseMessage) (rs : ReactorState T) (i : Nat)
    (hmem : i ∈ rs.table) (hnone : lookupResolved rs i = none) :
    lookupResolved (driveAll decode rs msgs) i
      = (msgs.find? (fun m => m.message_id == i)).map
          (fun m => decodeResult decode m.actual_data) ∧
    (∀ m, msgs.find? (fun mm => mm.message_id == i) = some m →
      EmitMessageWithResponse.pollStep (driveAll decode rs msgs) ⟨some ⟨i⟩, i⟩
        = some (Poll.ready (Except.ok (decodeResult decode m.actual_data)),
                ⟨none, i⟩)) := by
  have h1 := driveAll_lookup decode msgs rs i hmem hnone
  refine ⟨h1, ?_⟩
  intro m hfind
  rw [hfind] at h1
  simp only [Option.map_some'] at h1
  simp [EmitMessageWithResponse.pollStep, MessageResponseFuture.pollFut, h1]

/-- Witness for C1: three answers arrive out of order; identifier 5 resolves
with its own payload. -/
theorem emit_no_cross_talk_witness :
    lookupResolved
        (driveAll (fun l => l.head?) (⟨[4, 5], []⟩ : ReactorState Nat)
          [⟨5, [50]⟩, ⟨9, [90]⟩, ⟨4, [40]⟩]) 5
      = some (Resolution.ok 50) ∧
    EmitMessageWithResponse.pollStep
        (driveAll (fun l => l.head?) (⟨[4, 5], []⟩ : ReactorState Nat)
          [⟨5, [50]⟩, ⟨9, [90]⟩, ⟨4, [40]⟩]) ⟨some ⟨5⟩, 5⟩
      = some (Poll.ready (Except.ok (Resolution.ok 50)), ⟨none, 5⟩) := by
  have h := emit_no_cross_talk (fun l => l.head?)
    [⟨5, [50]⟩, ⟨9, [90]⟩, ⟨4, [40]⟩] (⟨[4, 5], []⟩ : ReactorState Nat) 5
    (by decide) rfl
  exact ⟨by rw [h.1]; rfl, h.2 ⟨5, [50]⟩ rfl⟩

/-- Claim C2: a response whose payload fails to decode resolves exactly its
own waiter with a decode error; every other identifier keeps its table
membership and its recorded resolution unchanged. -/
theorem decode_failure_isolated {T : Type} (decode : List Nat → Option T)
    (rs : ReactorState T) (m : ResponseMessage)
    (hdec : decode m.actual_data = none)
    (hmem : m.message_id ∈ rs.table)
    (hnone : lookupResolved rs m.message_id = none) :
    lookupResolved (processResponse decode rs m) m.message_id
        = some Resolution.decodeErr ∧
    (∀ j, j ≠ m.message_id →
      (j ∈ (processResponse decode rs m).table ↔ j ∈ rs.table) ∧
      lookupResolved (processResponse decode rs m) j = lookupResolved rs j) := by
  refine ⟨?_, ?_⟩
  · have h := processResponse_hit decode rs m hmem hnone
    rw [h]
    unfold decodeResult
    rw [hdec]
  · intro j hj
    exact ⟨mem_table_processResponse_of_ne decode rs m hj,
           lookupResolved_processResponse_of_ne decode rs m (fun hh => hj hh.symm)⟩

/-- Witness for C2: a payload the decoder rejects resolves its own waiter
with a decode error and leaves identifier 4 untouched. -/
theorem decode_failure_isolated_witness :
    lookupResolved
        (processResponse (fun l => l.head?) (⟨[4, 5], []⟩ : ReactorState Nat) ⟨5, []⟩) 5
      = some Resolution.decodeErr ∧
    ((4 ∈ (processResponse (fun l => l.head?)
            (⟨[4, 5], []⟩ : ReactorState Nat) ⟨5, []⟩).table ↔
        4 ∈ (⟨[4, 5], []⟩ : ReactorState Nat).table) ∧
     lookupResolved
        (processResponse (fun l => l.head?) (⟨[4, 5], []⟩ : ReactorState Nat) ⟨5, []⟩) 4
      = lookupResolved (⟨[4, 5], []⟩ : ReactorState Nat) 4) := by
  have h := decode_failure_isolated (fun l => l.head?)
    (⟨[4, 5], []⟩ : ReactorState Nat) ⟨5, []⟩ rfl (by decide) rfl
  exact ⟨h.1, h.2 4 (by decide)⟩

/-- Claim C3: dropping an `EmitMessageWithResponse` future that has not
resolved performs exactly one best-effort `cancel_message` call for its own
message id, whose `InvalidMessageId` failure is swallowed (the drop completes
and leaves the router state exactly as the cancel call left it); dropping it
after a poll returned ready performs no cancellation call at all. -/
theorem drop_cancels_once {T : Type} (rs : ReactorState T) (st : RouterState)
    (f : EmitMessageWithResponse) :
    (f.inner.isSome = true →
      f.dropCalls = [f.msg_id] ∧
      EmitMessageWithResponse.dropRun st f = (cancel_message st f.msg_id).2 ∧
      ((cancel_message st f.msg_id).1
          = Except.error CancelMessageErr.InvalidMessageId →
        EmitMessageWithResponse.dropRun st f = st)) ∧
    (∀ r f2, EmitMessageWithResponse.pollStep rs f = some (Poll.ready r, f2) →
      f2.dropCalls = [] ∧ EmitMessageWithResponse.dropRun st f2 = st) := by
  constructor
  · intro h
    refine ⟨?_, ?_, ?_⟩
    · simp [EmitMessageWithResponse.dropCalls, h]
    · simp [EmitMessageWithResponse.dropRun, h]
    · intro herr
      simp only [EmitMessageWithResponse.dropRun, h, if_true]
      unfold cancel_message ffi_cancel_message at herr ⊢
      by_cases hl : f.msg_id ∈ st.live
      · simp [hl] at herr
      · simp [hl]
  · intro r f2 hp
    obtain ⟨inner, msgid⟩ := f
    cases inner with
    | none => simp [EmitMessageWithResponse.pollStep] at hp
    | some mrf =>
      cases hq : MessageResponseFuture.pollFut (T := T) rs mrf with
      | pending => simp [EmitMessageWithResponse.pollStep, hq] at hp
      | ready val =>
        simp [EmitMessageWithResponse.pollStep, hq] at hp
        obtain ⟨hp1, hp2⟩ := hp
        subst hp2
        constructor
        · simp [EmitMessageWithResponse.dropCalls]
        · simp [EmitMessageWithResponse.dropRun]

/-- Witness for C3: an unresolved future cancels its own id once; a future
that has been polled to readiness makes no cancellation call. -/
theorem drop_cancels_once_witness :
    (EmitMessageWithResponse.dropCalls ⟨some ⟨5⟩, 5⟩ = [5]) ∧
    (EmitMessageWithResponse.dropCalls ⟨none, 5⟩ = [] ∧
     EmitMessageWithResponse.dropRun (⟨[], 0, [], []⟩ : RouterState) ⟨none, 5⟩
       = (⟨[], 0, [], []⟩ : RouterState)) :=
  ⟨((drop_cancels_once (⟨[], [(5, Resolution.ok 0)]⟩ : ReactorState Nat)
      (⟨[], 0, [], []⟩ : RouterState) ⟨some ⟨5⟩, 5⟩).1 rfl).1,
   (drop_cancels_once (⟨[], [(5, Resolution.ok 0)]⟩ : ReactorState Nat)
      (⟨[], 0, [], []⟩ : RouterState) ⟨some ⟨5⟩, 5⟩).2
     (Except.ok (Resolution.ok 0)) ⟨none, 5⟩ rfl⟩

/-! ## Receive-primitive lemmas -/

theorem clearMatched_decomp (m : Message) :
    ∀ (to_poll : List Nat), matchesAny to_poll m = true →
      ∃ l1 e l2, to_poll = l1 ++ e :: l2 ∧ matchesEntry e m = true ∧
        (∀ x ∈ l1, matchesEntry x m = false) ∧
        clearMatched to_poll m = l1 ++ 0 :: l2 := by
  intro tp
  induction tp with
  | nil => intro h; simp [matchesAny] at h
  | cons e rest ih =>
    intro h
    cases hem : matchesEntry e m with
    | true =>
      exact ⟨[], e, rest, rfl, hem, by simp, by simp [clearMatched, hem]⟩
    | false =>
      have hr : matchesAny rest m = true := by
        have hor : matchesEntry e m = true ∨ matchesAny rest m = true := by
          simpa [matchesAny, Bool.or_eq_true] using h
        rcases hor with hor | hor
        · rw [hem] at hor; cases hor
        · exact hor
      obtain ⟨l1, e2, l2, h1, h2, h3, h4⟩ := ih hr
      refine ⟨e :: l1, e2, l2, by simp [h1], h2, ?_, ?_⟩
      · intro x hx
        rcases List.mem_cons.mp hx with hx | hx
        · rw [hx]; exact hem
        · exact h3 x hx
      · simp [clearMatched, hem, h4]

theorem eraseFirstMatching_decomp (to_poll : List Nat) (m : Message)
    (l2 : List Message) (hm : matchesAny to_poll m = true) :
    ∀ l1 : List Message, (∀ x ∈ l1, matchesAny to_poll x = false) →
      eraseFirstMatching to_poll (l1 ++ m :: l2) = l1 ++ l2 := by
  intro l1
  induction l1 with
  | nil => intro _; simp [eraseFirstMatching, hm]
  | cons a rest ih =>
    intro hall
    have ha : matchesAny to_poll a = false := hall a (by simp)
    have hrest := ih (fun x hx => hall x (by simp [hx]))
    simp [eraseFirstMatching, ha, hrest]

/-- Claim C7: receive-primitive interest semantics.  Zero entries are padding
that match no message (and may be dropped from the interest list without
changing what matches); the sentinel entry 1 matches any inbound interface
message; and a call that delivers a message clears exactly the first interest
entry matching that message, leaving every other entry unchanged. -/
theorem next_message_interest_semantics :
    (∀ m, matchesEntry 0 m = false) ∧
    (∀ (to_poll : List Nat) (m : Message),
      matchesAny to_poll m
        = matchesAny (to_poll.filter (fun e => !(e == 0))) m) ∧
    (∀ im, matchesEntry 1 (Message.Interface im) = true) ∧
    (∀ (to_poll : List Nat) (queue : List Message) (out_len : Nat) (block : Bool)
        (m : Message) (to_poll2 : List Nat) (queue2 : List Message),
      next_message to_poll queue out_len block
          = (NextMessageOutcome.delivered m, to_poll2, queue2) →
      ∃ l1 e l2, to_poll = l1 ++ e :: l2 ∧ matchesEntry e m = true ∧
        (∀ x ∈ l1, matchesEntry x m = false) ∧ to_poll2 = l1 ++ 0 :: l2) := by
  refine ⟨fun m => rfl, ?_, fun im => rfl, ?_⟩
  · intro tp m
    induction tp with
    | nil => rfl
    | cons e rest ih =>
      cases he : (e == 0) with
      | true =>
        have he2 : e = 0 := by simpa using he
        subst he2
        simpa [matchesAny, matchesEntry] using ih
      | false =>
        simp only [matchesAny, List.any_cons, List.filter_cons, he, Bool.not_false,
          if_pos] at ih ⊢
        rw [ih]
  · intro tp q ol bl m tp2 q2 h
    cases hf : q.find? (fun x => matchesAny tp x) with
    | none =>
      simp only [next_message, hf] at h
      cases bl <;> simp at h
    | some m0 =>
      simp only [next_message, hf] at h
      by_cases hs : encodedSize m0 ≤ ol
      · rw [if_pos hs] at h
        simp only [Prod.mk.injEq, NextMessageOutcome.delivered.injEq] at h
        obtain ⟨hm, htp, hq⟩ := h
        subst hm
        have hma : matchesAny tp m0 = true := List.find?_some hf
        obtain ⟨l1, e, l2, h1, h2, h3, h4⟩ := clearMatched_decomp m0 tp hma
        exact ⟨l1, e, l2, h1, h2, h3, by rw [← htp, h4]⟩
      · rw [if_neg hs] at h
        simp at h

/-- Witness for C7: a delivered interface message clears the matched sentinel
entry and only that entry. -/
theorem next_message_interest_semantics_witness :
    matchesEntry 0 (Message.Interface ⟨0, 0, []⟩) = false ∧
    matchesAny [0, 1] (Message.Interface ⟨0, 0, []⟩)
      = matchesAny (([0, 1] : List Nat).filter (fun e => !(e == 0)))
          (Message.Interface ⟨0, 0, []⟩) ∧
    matchesEntry 1 (Message.Interface ⟨0, 0, []⟩) = true ∧
    (∃ l1 e l2, ([0, 1] : List Nat) = l1 ++ e :: l2 ∧
      matchesEntry e (Message.Interface ⟨0, 0, []⟩) = true ∧
      (∀ x ∈ l1, matchesEntry x (Message.Interface ⟨0, 0, []⟩) = false) ∧
      ([0, 0] : List Nat) = l1 ++ 0 :: l2) :=
  ⟨next_message_interest_semantics.1 (Message.Interface ⟨0, 0, []⟩),
   next_message_interest_semantics.2.1 [0, 1] (Message.Interface ⟨0, 0, []⟩),
   next_message_interest_semantics.2.2.1 ⟨0, 0, []⟩,
   next_message_interest_semantics.2.2.2 [0, 1] [Message.Interface ⟨0, 0, []⟩] 64 false
     (Message.Interface ⟨0, 0, []⟩) [0, 0] [] (by decide)⟩

/-- Claim C8: a `next_message` call whose buffer is smaller than the encoded
size of the first matching queued message returns that size, writes nothing
and consumes nothing; a subsequent call with a big-enough buffer delivers the
very same message and consumes it; delivery always picks the first matching
message in arrival order (FIFO), skipping but keeping the non-matching ones. -/
theorem next_message_too_small_fifo (to_poll : List Nat) (queue : List Message)
    (out_len : Nat) (block : Bool) (m : Message)
    (hf : queue.find? (fun x => matchesAny to_poll x) = some m)
    (hs : out_len < encodedSize m) :
    next_message to_poll queue out_len block
        = (NextMessageOutcome.tooSmall (encodedSize m), to_poll, queue) ∧
    ∃ l1 l2, queue = l1 ++ m :: l2 ∧ (∀ x ∈ l1, matchesAny to_poll x = false) ∧
      ∀ out_len2, encodedSize m ≤ out_len2 →
        next_message to_poll queue out_len2 block
          = (NextMessageOutcome.delivered m, clearMatched to_poll m, l1 ++ l2) := by
  constructor
  · have hs2 : ¬ encodedSize m ≤ out_len := by omega
    simp only [next_message, hf, if_neg hs2]
  · obtain ⟨hp, l1, l2, hq, hall⟩ := List.find?_eq_some.mp hf
    have hall2 : ∀ x ∈ l1, matchesAny to_poll x = false := by
      intro x hx
      have := hall x hx
      simpa using this
    refine ⟨l1, l2, hq, hall2, ?_⟩
    intro ol2 hol2
    simp only [next_message, hf, if_pos hol2]
    rw [hq, eraseFirstMatching_decomp to_poll m l2 hp l1 hall2]

/-- Witness for C8: a 21-byte response message against a 2-byte buffer, then
a 64-byte buffer. -/
theorem next_message_too_small_fifo_witness :
    next_message [0, 1] [Message.Response ⟨7, [9]⟩, Message.Interface ⟨0, 0, []⟩] 2 false
        = (NextMessageOutcome.tooSmall
            (encodedSize (Message.Interface ⟨0, 0, []⟩)), [0, 1],
           [Message.Response ⟨7, [9]⟩, Message.Interface ⟨0, 0, []⟩]) ∧
    ∃ l1 l2,
      [Message.Response ⟨7, [9]⟩, Message.Interface ⟨0, 0, []⟩]
          = l1 ++ Message.Interface ⟨0, 0, []⟩ :: l2 ∧
      (∀ x ∈ l1, matchesAny [0, 1] x = false) ∧
      ∀ out_len2, encodedSize (Message.Interface ⟨0, 0, []⟩) ≤ out_len2 →
        next_message [0, 1] [Message.Response ⟨7, [9]⟩, Message.Interface ⟨0, 0, []⟩]
            out_len2 false
          = (NextMessageOutcome.delivered (Message.Interface ⟨0, 0, []⟩),
             clearMatched [0, 1] (Message.Interface ⟨0, 0, []⟩), l1 ++ l2) :=
  next_message_too_small_fifo [0, 1]
    [Message.Response ⟨7, [9]⟩, Message.Interface ⟨0, 0, []⟩] 2 false
    (Message.Interface ⟨0, 0, []⟩) (by decide) (by decide)

end Redshirt
